import Mathlib

/-! Mdf3Lib: the block envelope of `mdf3.h`.

A shallow embedding of `src/Mdf3Lib/mdf3.h`: the common block header, the link section of
`m3Block`, the template `m3BlockImpl<R, T, ID>` that binds a fixed record `R` and a variable
part to a block, and the header block `M3HDBlock`.

Conventions of the embedding.

* Machine integers are natural numbers; a narrowing cast is written as an explicit `%`.
  `M_UINT64`, `M3SIZE`, `M3LINK` and `size_t` are 64 bit wide, `M_UINT32` is 32 bit wide.
* A pointer into an array is `Option Nat`: `none` is `NULL`, `some i` is the address of
  element `i`.
* A member function is a function from the object before the call to a `Run` of its result
  and the object after the call. `assert` is the one of `<assert.h>`: the flag `ndebug` tells
  whether the translation unit is built with `NDEBUG`; without it a failed assertion ends the
  run, with it the assertion is not evaluated and the call goes on.
* What the sources at hand do not determine is a parameter: the size `sizeofT` of the
  variable element type `T`, the build flag `ndebug`, the packing of the records, and the
  content of memory nobody has written yet (`uninit`, `cells`).
* Raw memory (the record `R`, the cells of an array, the bytes of a file) is a function from
  the position to the value stored there.
-/

namespace Mdf3

/-- How a call ends: it returns a value, an `assert` stops the program, or a `NULL` pointer
is dereferenced. -/
inductive Run (α : Type) where
  | done (a : α) : Run α
  | assertFailed : Run α
  | nullDeref : Run α

namespace Run

/-- Sequencing of two calls: the second one starts when the first one has returned. -/
def bind {α β : Type} (r : Run α) (k : α → Run β) : Run β :=
  match r with
  | done a => k a
  | assertFailed => assertFailed
  | nullDeref => nullDeref

/-- Whether the call returned. -/
def returned {α : Type} (r : Run α) : Bool :=
  match r with
  | done _ => true
  | _ => false

end Run

/-- The function `assert(cond)` of `<assert.h>`: built with `NDEBUG` it does nothing, else it
ends the run when the condition is false. -/
def assert (ndebug : Bool) (cond : Bool) : Run Unit :=
  if ndebug then Run.done ()
  else if cond then Run.done () else Run.assertFailed

/-- Width of `M_UINT32`. -/
def UINT32_RANGE : Nat := 2 ^ 32

/-- Width of `M_UINT64`, `M3SIZE`, `M3LINK` and `size_t`. -/
def UINT64_RANGE : Nat := 2 ^ 64

/-- Modelled from the spec: the macro `MDF_ID(a, b)` of `mdfConfig.h`, which is not among the
sources. The spec puts the two characters of an identifier at consecutive bytes of the block
header; read as a little-endian 16 bit number that is `a + 256 * b`. -/
def MDF_ID (a b : Char) : Nat := (a.toNat + 256 * b.toNat) % 2 ^ 16

/-- The common identifier prefix, `M3ID_ID`. -/
def M3ID_ID : Nat := MDF_ID '#' '#'

/-- The identifier of the header block, `M3ID_HD`. -/
def M3ID_HD : Nat := MDF_ID 'H' 'D'

/-- The common header of every block, `struct m3BlockHdr`. -/
structure m3BlockHdr where
  hdr_hdr : Nat
  hdr_id : Nat
  hdr_len : Nat
  hdr_links : Nat
deriving DecidableEq, Repr

/-- Modelled from the spec: the class template `dynArray<T>` of `dynArray.h`, which is not
among the sources. The spec calls it a resizable, index-addressed sequence; slots beyond its
size do not exist for the caller. `m_Size` is the number of elements, `m_Data` the cells of
its memory: one cell an element for the link table, one cell a byte for a buffer that
`ReadAt` fills. -/
structure dynArray where
  m_Size : Nat
  m_Data : Nat → Nat

namespace dynArray

/-- Modelled from the spec: the constructor `dynArray<T>(initialSize)`: `initialSize`
elements. Neither the spec nor the sources say what a new element holds: `cells` is the
content of the memory the array gets. -/
def create (initialSize : Nat) (cells : Nat → Nat) : dynArray :=
  { m_Size := initialSize, m_Data := cells }

/-- Modelled from the spec: `getSize()`, the number of elements. -/
def getSize (a : dynArray) : Nat := a.m_Size

/-- Modelled from the spec: `getBytes()`, the number of bytes the elements take; `sizeofT` is
`sizeof(T)`. -/
def getBytes (sizeofT : Nat) (a : dynArray) : Nat := a.m_Size * sizeofT

/-- Modelled from the spec: `get(Index)`, the address of element `Index`, `NULL` when there is
no such element. -/
def get (a : dynArray) (Index : Nat) : Option Nat :=
  if Index < a.m_Size then some Index else none

/-- Modelled from the spec: `resize(newSize)`: the array has `newSize` elements afterwards;
the result is the address of its first element, `NULL` for an empty array. Cells keep what
they held. -/
def resize (a : dynArray) (newSize : Nat) : dynArray × Option Nat :=
  let a1 := { a with m_Size := newSize }
  (a1, a1.get 0)

/-- Reading through a pointer to an element: `*p`. -/
def load (a : dynArray) (p : Nat) : Nat := a.m_Data p

/-- Writing through a pointer to an element: `*p = v`. -/
def store (a : dynArray) (p : Nat) (v : Nat) : dynArray :=
  { a with m_Data := fun k => if k = p then v else a.m_Data k }

end dynArray

/-- Modelled from the spec: the random-access file handle `mDirectFile` of `mdFile.h`, which
is not among the sources. `bytes` is the content by absolute position; `readable At n` tells
whether `ReadAt(At, n, buffer)` succeeds (any cause of failure: a short file, a device
error). -/
structure mDirectFile where
  bytes : Nat → Nat
  readable : Nat → Nat → Bool

/-- Modelled from the spec: `mDirectFile::ReadAt(At, n, buffer)`. On success the first `n`
bytes of the buffer are the file bytes from position `At` on and the rest of the buffer is
as before; on failure (`none`) the buffer is left alone. -/
def mDirectFile.ReadAt (f : mDirectFile) (At n : Nat) (buffer : Nat → Nat) :
    Option (Nat → Nat) :=
  if f.readable At n then some (fun k => if k < n then f.bytes (At + k) else buffer k)
  else none

/-- The base class of all blocks, `class m3Block`: its data members. -/
structure m3Block where
  m_File : Option mDirectFile
  m_At : Nat
  m_Hdr : m3BlockHdr
  m_Links : dynArray

namespace m3Block

/-- The constructor `m3Block(initLinks)`: `initLinks` link slots, no file, position 0, a zeroed
header with the common identifier prefix. `linkCells` is what the memory of the new link
table holds. -/
def create (initLinks : Nat) (linkCells : Nat → Nat) : m3Block :=
  { m_Links := dynArray.create initLinks linkCells
    m_File := none
    m_At := 0
    m_Hdr := { hdr_hdr := M3ID_ID, hdr_id := 0, hdr_len := 0, hdr_links := 0 } }

/-- The member `hasLink(linkNo)`: `linkNo < m_Links.getSize() && *m_Links.get(linkNo) != 0`. -/
def hasLink (b : m3Block) (linkNo : Nat) : Run (Bool × m3Block) :=
  if linkNo < b.m_Links.getSize then
    match b.m_Links.get linkNo with
    | none => Run.nullDeref
    | some p => Run.done (decide (b.m_Links.load p ≠ 0), b)
  else Run.done (false, b)

/-- The member `setLink(linkNo, at)`: `*m_Links.get(linkNo) = at`. -/
def setLink (b : m3Block) (linkNo : Nat) (at_ : Nat) : Run m3Block :=
  match b.m_Links.get linkNo with
  | none => Run.nullDeref
  | some p => Run.done { b with m_Links := b.m_Links.store p at_ }

/-- The member `getLink(linkNo)`: 0 when `linkNo >= m_Links.getSize()`, else
`*m_Links.get(linkNo)`. -/
def getLink (b : m3Block) (linkNo : Nat) : Run (Nat × m3Block) :=
  if linkNo ≥ b.m_Links.getSize then Run.done (0, b)
  else
    match b.m_Links.get linkNo with
    | none => Run.nullDeref
    | some p => Run.done (b.m_Links.load p, b)

/-- A sequence of `setLink` calls, one after the other. -/
def setLinks (b : m3Block) (calls : List (Nat × Nat)) : Run m3Block :=
  match calls with
  | [] => Run.done b
  | (linkNo, at_) :: rest => (b.setLink linkNo at_).bind (fun b1 => setLinks b1 rest)

end m3Block

/-- The template argument `R` of `m3BlockImpl` as far as the template uses it: `sizeof(R)`,
the number of known links `R::LinkMax` and the identifier `R::RID`. `getFixedSize()` returns
`sizeof(R)` as an `M_UINT32`, so the size is below `2 ^ 32`. -/
structure RecordType where
  sizeofR : Nat
  LinkMax : Nat
  RID : Nat
  sizeof_lt : sizeofR < 2 ^ 32

/-- The function `memset(p, value, n)` on raw memory that starts at `p`. -/
def memset (mem : Nat → Nat) (value n : Nat) : Nat → Nat :=
  fun k => if k < n then value else mem k

/-- The class template `m3BlockImpl<R, T, ID>`: the members of `m3Block`, the base sub-object
`R` as raw bytes (`record`, of which the first `sizeof(R)` positions belong to `R`) and the
variable part `m_var`, a `dynArray<T>`: its `m_Size` counts elements of `T`, its cells are
the bytes of the buffer. The members that depend on `T` take `sizeof(T)` as `sizeofT`. -/
structure m3BlockImpl extends m3Block where
  record : Nat → Nat
  m_var : dynArray

namespace m3BlockImpl

/-- The constructor `m3BlockImpl(nVar)`: the base is built with `R::LinkMax` links, `m_var`
with `nVar` elements, the header gets the identifiers and the sub-object `R` is set to zero
by `memset`. `uninit` is what the memory of `R` held before the constructor ran,
`linkCells` and `varCells` what the memory of the two new arrays holds. -/
def create (R : RecordType) (ID : Nat) (nVar : Nat) (uninit linkCells varCells : Nat → Nat) :
    m3BlockImpl :=
  let base := m3Block.create R.LinkMax linkCells
  { m_File := base.m_File
    m_At := base.m_At
    m_Links := base.m_Links
    m_Hdr := { base.m_Hdr with hdr_hdr := M3ID_ID, hdr_id := ID % 2 ^ 16 }
    m_var := dynArray.create nVar varCells
    record := memset uninit 0 R.sizeofR }

/-- The member `getFixedSize()`: `sizeof(R)` as an `M_UINT32`. -/
def getFixedSize (R : RecordType) (b : m3BlockImpl) : Run (Nat × m3BlockImpl) :=
  Run.done (R.sizeofR % UINT32_RANGE, b)

/-- The member `readData(At, szRemain)`. The fixed part is read into the sub-object `R`
with the count `(M_UINT32)szThis`; when bytes remain, `m_var` is resized to
`(size_t)szRemain` elements and read with the count `(M_UINT32)szRemain` at `At + szThis`.
The result is the `BOOL` and the block after the call. -/
def readData (R : RecordType) (b : m3BlockImpl) (At szRemain : Nat) :
    Run (Bool × m3BlockImpl) :=
  let szThis := R.sizeofR
  let szThis := if szThis > szRemain then szRemain else szThis
  match b.m_File with
  | none => Run.nullDeref
  | some f =>
    match f.ReadAt At (szThis % UINT32_RANGE) b.record with
    | none => Run.done (false, b)
    | some rec1 =>
      let b1 := { b with record := rec1 }
      let szRemain := (szRemain - szThis) % UINT64_RANGE
      if szRemain > 0 then
        let resized := b1.m_var.resize (szRemain % UINT64_RANGE)
        let b2 := { b1 with m_var := resized.1 }
        let At := (At + szThis) % UINT64_RANGE
        match resized.2 with
        | none => Run.nullDeref
        | some pVar =>
          match f.ReadAt At (szRemain % UINT32_RANGE) (fun k => b2.m_var.m_Data (pVar + k)) with
          | none => Run.done (false, b2)
          | some cells =>
            Run.done (true, { b2 with m_var := { b2.m_var with
              m_Data := fun k => if pVar ≤ k then cells (k - pVar) else b2.m_var.m_Data k } })
      else Run.done (true, b1)

/-- The member `getSize()`: `m_var.getBytes()`, the number of elements times `sizeof(T)`. -/
def getSize (b : m3BlockImpl) (sizeofT : Nat) : Run (Nat × m3BlockImpl) :=
  Run.done (b.m_var.getBytes sizeofT, b)

/-- The member `getData(Index, szRemain)`; `szRemain` is passed by reference, so its value
after the call is part of the result: the pointer, `szRemain` and the block. With
`Index == 0` the assertion `szRemain == m_var.getBytes()` comes first, then
`szRemain ? m_var.get() : NULL` is returned; with any other index `assert(FALSE)` comes
first, then `NULL` is returned. -/
def getData (b : m3BlockImpl) (sizeofT : Nat) (ndebug : Bool) (Index : Int) (szRemain : Nat) :
    Run (Option Nat × Nat × m3BlockImpl) :=
  if Index = 0 then
    (assert ndebug (decide (szRemain = b.m_var.getBytes sizeofT))).bind
      (fun _ => Run.done (if szRemain ≠ 0 then b.m_var.get 0 else none, szRemain, b))
  else
    (assert ndebug false).bind (fun _ => Run.done (none, szRemain, b))

/-- The member `get(Index)`: `m_var.get(Index)`. -/
def get (b : m3BlockImpl) (Index : Nat) : Option Nat := b.m_var.get Index

/-- The block once the members of the base class were assigned: `Read` binds the file, the
position, the header and the links before it calls `readData`. -/
def withBase (b : m3BlockImpl) (base : m3Block) : m3BlockImpl :=
  { b with tom3Block := base }

/-- The block a call of `readData` leaves behind (the block itself when the call did not
return). -/
def afterReadData (R : RecordType) (b : m3BlockImpl) (At szRemain : Nat) : m3BlockImpl :=
  match b.readData R At szRemain with
  | Run.done r => r.2
  | _ => b

end m3BlockImpl

/-- The structure packing in force where `M3HDRecord` is declared (`mdfConfig.h` is not among
the sources): members are aligned to their own size, at most to the packing. -/
inductive Packing where
  | pack1 : Packing
  | pack2 : Packing
  | pack4 : Packing
  | pack8 : Packing
deriving DecidableEq, Repr

/-- The value of `sizeof(M_BYTE)`; `M_BYTE` is the default of the template parameter `T`. -/
def sizeof_M_BYTE : Nat := 1

/-- The number of bytes a packing stands for. -/
def Packing.bytes : Packing → Nat
  | pack1 => 1
  | pack2 => 2
  | pack4 => 4
  | pack8 => 8

/-- A data member of a record: the size of one element and the number of elements. -/
structure Member where
  elemSize : Nat
  count : Nat
deriving DecidableEq, Repr

/-- The next multiple of `a` that is at least `n`. -/
def alignUp (n a : Nat) : Nat := (n + a - 1) / a * a

/-- The offsets of the members of a record, in the order of declaration, from the first free
position `cur` on. -/
def memberOffsets (p : Packing) (cur : Nat) : List Member → List Nat
  | [] => []
  | m :: ms =>
    let o := alignUp cur (min m.elemSize p.bytes)
    o :: memberOffsets p (o + m.elemSize * m.count) ms

/-- The first free position after the members of a record. -/
def membersEnd (p : Packing) (cur : Nat) : List Member → Nat
  | [] => cur
  | m :: ms => membersEnd p (alignUp cur (min m.elemSize p.bytes) + m.elemSize * m.count) ms

/-- The alignment of a record: the largest alignment of a member. -/
def recordAlign (p : Packing) : List Member → Nat
  | [] => 1
  | m :: ms => max (min m.elemSize p.bytes) (recordAlign p ms)

/-- The value of `sizeof` for a record with the given members. -/
def recordSizeof (p : Packing) (ms : List Member) : Nat :=
  alignUp (membersEnd p 0 ms) (recordAlign p ms)

/-- The bytes of a member that starts at `offset` and is `n` bytes long. -/
def memberBytes (mem : Nat → Nat) (offset n : Nat) : List Nat :=
  (List.range n).map (fun k => mem (offset + k))

/-- The unsigned number a list of bytes stands for, least significant byte first. -/
def leValue : List Nat → Nat
  | [] => 0
  | b :: bs => b + 256 * leValue bs

/-- The signed 16 bit number an unsigned 16 bit pattern stands for. -/
def toINT16 (v : Nat) : Int := if v < 2 ^ 15 then (v : Int) else (v : Int) - 2 ^ 16

namespace M3HDRecord

/-- The data members of `struct M3HDRecord` in the order of declaration: `hd_block_size`,
`hd_date[10]`, `hd_time[8]`, `hd_author[32]`, `hd_organization[32]`, `hd_project[32]`,
`hd_subject[32]`, `hd_timestamp`, `hd_utc_time_offset`, `hd_time_quality_class`,
`hd_time_identification`. -/
def members : List Member :=
  [⟨2, 1⟩, ⟨1, 10⟩, ⟨1, 8⟩, ⟨1, 32⟩, ⟨1, 32⟩, ⟨1, 32⟩, ⟨1, 32⟩, ⟨8, 1⟩, ⟨2, 1⟩, ⟨2, 1⟩, ⟨1, 1⟩]

/-- The offset of the member number `i` of `M3HDRecord`. -/
def offsetOf (p : Packing) (i : Nat) : Nat := (memberOffsets p 0 members).getD i 0

/-- The enumerator `Linkmax`, the number of known links: it follows `hd_dg_first`, `hd_tx`
and `hd_pr`. -/
def Linkmax : Nat := 3

/-- The enumerator `RID`. -/
def RID : Nat := M3ID_HD

/-- The value of `sizeof(M3HDRecord)`. -/
def sizeof (p : Packing) : Nat := recordSizeof p members

/-- The record type `M3HDRecord` as a template argument. The template reads `R::LinkMax`; the
record spells its enumerator `Linkmax`, which is the value taken here. -/
def type (p : Packing) : RecordType :=
  { sizeofR := sizeof p
    LinkMax := Linkmax
    RID := RID
    sizeof_lt := by cases p <;> decide }

/-- The member `hd_block_size`. -/
def hd_block_size (p : Packing) (mem : Nat → Nat) : Int :=
  toINT16 (leValue (memberBytes mem (offsetOf p 0) 2))

/-- The member `hd_date`. -/
def hd_date (p : Packing) (mem : Nat → Nat) : List Nat := memberBytes mem (offsetOf p 1) 10

/-- The member `hd_time`. -/
def hd_time (p : Packing) (mem : Nat → Nat) : List Nat := memberBytes mem (offsetOf p 2) 8

/-- The member `hd_author`. -/
def hd_author (p : Packing) (mem : Nat → Nat) : List Nat := memberBytes mem (offsetOf p 3) 32

/-- The member `hd_organization`. -/
def hd_organization (p : Packing) (mem : Nat → Nat) : List Nat :=
  memberBytes mem (offsetOf p 4) 32

/-- The member `hd_project`. -/
def hd_project (p : Packing) (mem : Nat → Nat) : List Nat := memberBytes mem (offsetOf p 5) 32

/-- The member `hd_subject`. -/
def hd_subject (p : Packing) (mem : Nat → Nat) : List Nat := memberBytes mem (offsetOf p 6) 32

/-- The member `hd_timestamp`. -/
def hd_timestamp (p : Packing) (mem : Nat → Nat) : Nat :=
  leValue (memberBytes mem (offsetOf p 7) 8)

/-- The member `hd_utc_time_offset`. -/
def hd_utc_time_offset (p : Packing) (mem : Nat → Nat) : Int :=
  toINT16 (leValue (memberBytes mem (offsetOf p 8) 2))

/-- The member `hd_time_quality_class`. -/
def hd_time_quality_class (p : Packing) (mem : Nat → Nat) : Nat :=
  leValue (memberBytes mem (offsetOf p 9) 2)

/-- The member `hd_time_identification`. -/
def hd_time_identification (p : Packing) (mem : Nat → Nat) : Nat :=
  leValue (memberBytes mem (offsetOf p 10) 1)

end M3HDRecord

/-- The class `M3HDBlock`: `m3BlockImpl<M3HDRecord>` with the three owned pointers and the
flag `m_bPrepared`. -/
structure M3HDBlock extends m3BlockImpl where
  m_dgNext : Option Nat
  m_txNext : Option Nat
  m_prNext : Option Nat
  m_bPrepared : Bool

/-- The constructor `M3HDBlock()`: the base with `nVar = 0`, the pointers `NULL`, the flag
false. -/
def M3HDBlock.create (p : Packing) (uninit linkCells varCells : Nat → Nat) : M3HDBlock :=
  { tom3BlockImpl :=
      m3BlockImpl.create (M3HDRecord.type p) M3HDRecord.RID 0 uninit linkCells varCells
    m_dgNext := none
    m_txNext := none
    m_prNext := none
    m_bPrepared := false }

namespace M3HDRecord

/-- The names of the data members of `struct M3HDRecord` in the order of declaration. -/
def memberNames : List String :=
  ["hd_block_size", "hd_date", "hd_time", "hd_author", "hd_organization", "hd_project",
    "hd_subject", "hd_timestamp", "hd_utc_time_offset", "hd_time_quality_class",
    "hd_time_identification"]

/-- The number of bytes each data member of `struct M3HDRecord` takes. -/
def memberWidths : List Nat := members.map (fun m => m.elemSize * m.count)

end M3HDRecord

namespace m3BlockImpl

/-- The member `hasLink` as `m3BlockImpl` inherits it from `m3Block`. -/
def hasLink (b : m3BlockImpl) (linkNo : Nat) : Run (Bool × m3BlockImpl) :=
  (b.tom3Block.hasLink linkNo).bind (fun r => Run.done (r.1, b.withBase r.2))

/-- The member `getLink` as `m3BlockImpl` inherits it from `m3Block`. -/
def getLink (b : m3BlockImpl) (linkNo : Nat) : Run (Nat × m3BlockImpl) :=
  (b.tom3Block.getLink linkNo).bind (fun r => Run.done (r.1, b.withBase r.2))

/-- The member `setLink` as `m3BlockImpl` inherits it from `m3Block`. -/
def setLink (b : m3BlockImpl) (linkNo : Nat) (at_ : Nat) : Run m3BlockImpl :=
  (b.tom3Block.setLink linkNo at_).bind (fun base => Run.done (b.withBase base))

/-- The calls of `ReadAt` that `readData(At, szRemain)` issues, in their order, each as the
position and the count it passes; the control flow is the one of `readData`. -/
def readDataReads (R : RecordType) (b : m3BlockImpl) (At szRemain : Nat) : List (Nat × Nat) :=
  let szThis := R.sizeofR
  let szThis := if szThis > szRemain then szRemain else szThis
  match b.m_File with
  | none => []
  | some f =>
    (At, szThis % UINT32_RANGE) ::
      match f.ReadAt At (szThis % UINT32_RANGE) b.record with
      | none => []
      | some _ =>
        let szRemain := (szRemain - szThis) % UINT64_RANGE
        if szRemain > 0 then
          match (b.m_var.resize (szRemain % UINT64_RANGE)).2 with
          | none => []
          | some _ => [((At + szThis) % UINT64_RANGE, szRemain % UINT32_RANGE)]
        else []

end m3BlockImpl

/-- Modelled from the spec: the key `idCount::id` of the record count table. The code that
computes it is not among the sources; the comment at the member gives `(DGNum<<45)|recId`,
and the spec says group and record kind are packed into one 64 bit integer with fixed bit
widths. -/
def idCountKey (DGNum recId : Nat) : Nat :=
  ((DGNum <<< 45) % UINT64_RANGE) ||| (recId % UINT64_RANGE)

/-! ## Example data -/

/-- A record type of four bytes without links. -/
def exampleRecord : RecordType :=
  { sizeofR := 4, LinkMax := 0, RID := MDF_ID 'T' 'X', sizeof_lt := by decide }

/-- A file whose bytes all are 170 and whose reads all succeed. -/
def exampleFile : mDirectFile :=
  { bytes := fun _ => 170, readable := fun _ _ => true }

/-- Memory that holds 0 everywhere. -/
def clearedCells : Nat → Nat := fun _ => 0

/-- Memory that holds 255 everywhere. -/
def dirtyCells : Nat → Nat := fun _ => 255

/-- A block of `exampleRecord` built with `nVar` variable elements in cleared memory and
bound to `exampleFile`. -/
def exampleBlock (nVar : Nat) : m3BlockImpl :=
  (m3BlockImpl.create exampleRecord exampleRecord.RID nVar dirtyCells clearedCells
      clearedCells).withBase
    { m3Block.create exampleRecord.LinkMax clearedCells with m_File := some exampleFile }

/-- A file whose bytes all are 170 and whose reads succeed at position 0 only. -/
def exampleFileShort : mDirectFile :=
  { bytes := fun _ => 170, readable := fun At _ => decide (At = 0) }

/-- A block of `exampleRecord` with an empty variable part, bound to `exampleFileShort`. -/
def exampleBlockShort : m3BlockImpl :=
  (m3BlockImpl.create exampleRecord exampleRecord.RID 0 dirtyCells clearedCells
      clearedCells).withBase
    { m3Block.create exampleRecord.LinkMax clearedCells with
      m_File := some exampleFileShort }

/-- A new header block, byte packed, once `Read` bound it to `exampleFile` at position 64. -/
def exampleHeader : m3BlockImpl :=
  (M3HDBlock.create Packing.pack1 dirtyCells clearedCells clearedCells).tom3BlockImpl.withBase
    { m3Block.create M3HDRecord.Linkmax clearedCells with
      m_File := some exampleFile
      m_At := 64 }

/-- With an index in range `setLink` returns, and the block after it differs in that slot
only. -/
theorem setLink_in_range (b : m3Block) (i v : Nat) (hi : i < b.m_Links.getSize) :
    b.setLink i v = Run.done { b with m_Links := b.m_Links.store i v } := by
  have h : i < b.m_Links.m_Size := hi
  simp [m3Block.setLink, dynArray.get, h]

/-- With an index in range `getLink` returns the stored offset and leaves the block alone. -/
theorem getLink_in_range (b : m3Block) (i : Nat) (hi : i < b.m_Links.getSize) :
    b.getLink i = Run.done (b.m_Links.load i, b) := by
  have h : i < b.m_Links.m_Size := hi
  have h2 : ¬ b.m_Links.getSize ≤ i := Nat.not_le.mpr hi
  simp [m3Block.getLink, dynArray.get, h, h2]

/-- A sequence of in-range `setLink` calls that stay away from slot `i` returns, keeps the
number of slots and keeps slot `i`. -/
theorem setLinks_keeps_slot (calls : List (Nat × Nat)) (b : m3Block) (i : Nat)
    (hcalls : ∀ c ∈ calls, c.1 < b.m_Links.getSize ∧ c.1 ≠ i) :
    ∃ b2, b.setLinks calls = Run.done b2 ∧ b2.m_Links.getSize = b.m_Links.getSize ∧
      b2.m_Links.load i = b.m_Links.load i := by
  induction calls generalizing b with
  | nil => exact ⟨b, rfl, rfl, rfl⟩
  | cons c rest ih =>
    obtain ⟨j, w⟩ := c
    have hj := hcalls (j, w) (List.mem_cons_self _ _)
    have hstep := setLink_in_range b j w hj.1
    have hrest : ∀ c ∈ rest, c.1 < ({ b with m_Links := b.m_Links.store j w } : m3Block).m_Links.getSize
        ∧ c.1 ≠ i := fun c hc => hcalls c (List.mem_cons_of_mem _ hc)
    obtain ⟨b2, hrun, hsize, hload⟩ := ih _ hrest
    refine ⟨b2, ?_, ?_, ?_⟩
    · simp only [m3Block.setLinks, hstep, Run.bind]
      exact hrun
    · rw [hsize]; rfl
    · rw [hload]
      have hne : i ≠ j := fun h => hj.2 h.symm
      simp [dynArray.load, dynArray.store, hne]

/-- C1: in a block with N link slots, for every index i < N and every offset v, `getLink(i)`
after `setLink(i, v)` returns v, also when any number of `setLink` calls at other in-range
indices come in between. -/
theorem C1_getLink_returns_last_setLink (b : m3Block) (i v : Nat) (calls : List (Nat × Nat))
    (hi : i < b.m_Links.getSize)
    (hcalls : ∀ c ∈ calls, c.1 < b.m_Links.getSize ∧ c.1 ≠ i) :
    ∃ b1 b2, b.setLink i v = Run.done b1 ∧ b1.setLinks calls = Run.done b2 ∧
      b2.getLink i = Run.done (v, b2) := by
  obtain ⟨b2, hrun, hsize, hload⟩ :=
    setLinks_keeps_slot calls { b with m_Links := b.m_Links.store i v } i hcalls
  refine ⟨_, b2, setLink_in_range b i v hi, hrun, ?_⟩
  have hi2 : i < b2.m_Links.getSize := by rw [hsize]; exact hi
  rw [getLink_in_range b2 i hi2, hload]
  simp [dynArray.load, dynArray.store]

/-- C1 at a block with three slots: slot 1 is set to 500, then slots 0, 2 and 0 are set. -/
theorem C1_getLink_returns_last_setLink_witness :
    ∃ b1 b2, (m3Block.create 3 clearedCells).setLink 1 500 = Run.done b1 ∧
      b1.setLinks [(0, 7), (2, 9), (0, 8)] = Run.done b2 ∧ b2.getLink 1 = Run.done (500, b2) :=
  C1_getLink_returns_last_setLink (m3Block.create 3 clearedCells) 1 500
    [(0, 7), (2, 9), (0, 8)]
    (by decide) (by decide)

/-- Past the last slot `getLink` returns 0 and leaves the block alone. -/
theorem getLink_past_end (b : m3Block) (i : Nat) (hi : i ≥ b.m_Links.getSize) :
    b.getLink i = Run.done (0, b) := by
  simp [m3Block.getLink, hi]

/-- C2: in a block with N link slots, for every index i >= N, `getLink(i)` returns 0, the
value for no link, without failing, and the block after the call is the block before it:
the number of slots and every stored offset are as they were. -/
theorem C2_getLink_out_of_range (b : m3Block) (i : Nat) (hi : i ≥ b.m_Links.getSize) :
    b.getLink i = Run.done (0, b) :=
  getLink_past_end b i hi

/-- C2 at a block with three slots and index 3. -/
theorem C2_getLink_out_of_range_witness :
    (m3Block.create 3 clearedCells).getLink 3 = Run.done (0, m3Block.create 3 clearedCells) :=
  C2_getLink_out_of_range (m3Block.create 3 clearedCells) 3 (by decide)

/-- C3: for every block and every index i, `hasLink(i)` returns, leaves the block alone, and
is true exactly when i is below the number of link slots and the offset stored at slot i is
not 0; that is exactly when the value `getLink(i)` returns is not 0. -/
theorem C3_hasLink_iff (b : m3Block) (i : Nat) :
    ∃ r v, b.hasLink i = Run.done (r, b) ∧ b.getLink i = Run.done (v, b) ∧
      (r = true ↔ (i < b.m_Links.getSize ∧ b.m_Links.m_Data i ≠ 0)) ∧
      (r = true ↔ v ≠ 0) := by
  by_cases hi : i < b.m_Links.getSize
  · have h : i < b.m_Links.m_Size := hi
    refine ⟨decide (b.m_Links.load i ≠ 0), b.m_Links.load i, ?_, getLink_in_range b i hi, ?_, ?_⟩
    · simp [m3Block.hasLink, dynArray.get, h, hi]
    · simp [dynArray.load, hi]
    · simp
  · refine ⟨false, 0, ?_, getLink_past_end b i (Nat.not_lt.mp hi), ?_, ?_⟩
    · simp [m3Block.hasLink, hi]
    · simp [hi]
    · simp

/-! ## The typed block: `readData` -/

/-- A call of `readData` with no more bytes than the record has: one read into the record,
whose result is the result of the call. -/
theorem readData_short (R : RecordType) (b : m3BlockImpl) (f : mDirectFile) (At rem : Nat)
    (hf : b.m_File = some f) (hrem : rem ≤ R.sizeofR) :
    b.readData R At rem =
      match f.ReadAt At rem b.record with
      | none => Run.done (false, b)
      | some rec1 => Run.done (true, { b with record := rec1 }) := by
  have hlt : rem < 2 ^ 32 := Nat.lt_of_le_of_lt hrem R.sizeof_lt
  have hmod : rem % 2 ^ 32 = rem := Nat.mod_eq_of_lt hlt
  have hmin : (if R.sizeofR > rem then rem else R.sizeofR) = rem := by
    split
    · rfl
    · omega
  simp only [m3BlockImpl.readData, hf, hmin, UINT32_RANGE, hmod, Nat.sub_self, Nat.zero_mod,
    gt_iff_lt, Nat.lt_irrefl, if_false]

/-- A call of `readData` with more bytes than the record has, below `2 ^ 64`: the record is
read whole, the variable part gets `rem - sizeof(R)` elements and is read at
`At + sizeof(R)` with the count `(rem - sizeof(R)) % 2 ^ 32`. -/
theorem readData_long (R : RecordType) (b : m3BlockImpl) (f : mDirectFile) (At rem : Nat)
    (hf : b.m_File = some f) (hrem : R.sizeofR < rem) (h64 : rem < UINT64_RANGE) :
    b.readData R At rem =
      match f.ReadAt At R.sizeofR b.record with
      | none => Run.done (false, b)
      | some rec1 =>
        match f.ReadAt ((At + R.sizeofR) % UINT64_RANGE) ((rem - R.sizeofR) % UINT32_RANGE)
            b.m_var.m_Data with
        | none =>
          Run.done (false,
            { b with
              record := rec1
              m_var := { m_Size := rem - R.sizeofR, m_Data := b.m_var.m_Data } })
        | some cells =>
          Run.done (true,
            { b with
              record := rec1
              m_var := { m_Size := rem - R.sizeofR, m_Data := cells } }) := by
  have hmodR : R.sizeofR % 2 ^ 32 = R.sizeofR := Nat.mod_eq_of_lt R.sizeof_lt
  have hmin : (if R.sizeofR > rem then rem else R.sizeofR) = R.sizeofR := by
    split
    · omega
    · rfl
  have hsub : (rem - R.sizeofR) % UINT64_RANGE = rem - R.sizeofR :=
    Nat.mod_eq_of_lt (Nat.lt_of_le_of_lt (Nat.sub_le _ _) h64)
  have hpos : 0 < rem - R.sizeofR := Nat.sub_pos_of_lt hrem
  simp only [m3BlockImpl.readData, hf, hmin, hsub, UINT32_RANGE, hmodR]
  cases f.ReadAt At R.sizeofR b.record with
  | none => rfl
  | some rec1 =>
    simp only [gt_iff_lt, hpos, if_true, dynArray.resize, dynArray.get, Nat.zero_add]
    cases f.ReadAt ((At + R.sizeofR) % UINT64_RANGE) ((rem - R.sizeofR) % 2 ^ 32)
        (fun k => b.m_var.m_Data k) with
    | none => rfl
    | some cells => simp

/-- What `readData` does when both counts fit 32 bits and the position does not wrap: it
returns success, the record holds the file bytes from `At` on, the variable part has
`rem - sizeof(R)` elements, as many bytes when the elements are bytes, and its first
`rem - sizeof(R)` bytes are the file bytes from `At + sizeof(R)` on. -/
theorem readData_fills_in_range (R : RecordType) (b : m3BlockImpl) (f : mDirectFile)
    (At rem : Nat) (hf : b.m_File = some f) (hrem : R.sizeofR < rem)
    (h32 : rem - R.sizeofR < UINT32_RANGE) (hAt : At + R.sizeofR < UINT64_RANGE)
    (h1 : f.readable At R.sizeofR = true)
    (h2 : f.readable (At + R.sizeofR) (rem - R.sizeofR) = true) :
    ∃ b1, b.readData R At rem = Run.done (true, b1) ∧
      (∀ k, k < R.sizeofR → b1.record k = f.bytes (At + k)) ∧
      b1.m_var.getBytes sizeof_M_BYTE = rem - R.sizeofR ∧
      (∀ k, k < rem - R.sizeofR → b1.m_var.m_Data k = f.bytes (At + R.sizeofR + k)) := by
  have h64 : rem < UINT64_RANGE := by
    have : UINT32_RANGE + 2 ^ 32 ≤ UINT64_RANGE := by decide
    have := R.sizeof_lt
    omega
  rw [readData_long R b f At rem hf hrem h64, Nat.mod_eq_of_lt h32, Nat.mod_eq_of_lt hAt]
  simp only [mDirectFile.ReadAt, h1, h2, if_true]
  refine ⟨_, rfl, ?_, ?_, ?_⟩
  · intro k hk
    simp [hk]
  · simp [dynArray.getBytes, sizeof_M_BYTE]
  · intro k hk
    simp [hk]

/-- C4: at the remaining count `sizeof(R) + 2 ^ 32` the call returns success and the variable
buffer has `2 ^ 32` bytes, but the count handed to the second read is `(M_UINT32)2 ^ 32 = 0`:
the first byte of the buffer is not the file byte at `At + sizeof(R)`. -/
theorem C4_readData_count_truncated :
    ∃ b1, (exampleBlock 0).readData exampleRecord 0 (4 + 2 ^ 32) = Run.done (true, b1) ∧
      b1.m_var.getBytes sizeof_M_BYTE = 2 ^ 32 ∧
      (∀ k, k < 4 → b1.record k = exampleFile.bytes (0 + k)) ∧
      b1.m_var.m_Data 0 = 0 ∧ exampleFile.bytes (0 + 4) = 170 :=
  ⟨_, rfl, rfl, fun _ hk => if_pos hk, rfl, rfl⟩

/-- C6: for a freshly constructed typed block, bound to a file, and every `rem < sizeof(R)`
for which the file read succeeds, `readData(At, rem)` returns success, the first `rem` bytes
of the record are the file bytes from `At` on, and every byte of the record at a position
from `rem` on is zero. -/
theorem C6_readData_short_block (R : RecordType) (ID nVar : Nat)
    (uninit linkCells varCells : Nat → Nat)
    (base : m3Block) (f : mDirectFile) (At rem : Nat)
    (hf : base.m_File = some f) (hrem : rem < R.sizeofR) (hread : f.readable At rem = true) :
    ∃ b1, ((m3BlockImpl.create R ID nVar uninit linkCells varCells).withBase base).readData
          R At rem = Run.done (true, b1) ∧
      (∀ k, k < rem → b1.record k = f.bytes (At + k)) ∧
      (∀ k, rem ≤ k → k < R.sizeofR → b1.record k = 0) := by
  rw [readData_short R _ f At rem hf (Nat.le_of_lt hrem)]
  simp only [mDirectFile.ReadAt, hread, if_true]
  refine ⟨_, rfl, ?_, ?_⟩
  · intro k hk
    simp [hk]
  · intro k hk hk2
    have hnot : ¬ k < rem := Nat.not_lt.mpr hk
    simp [hnot, m3BlockImpl.withBase, m3BlockImpl.create, memset, hk2]

/-- C6 at a new block of the four byte record, built in memory that held 255 everywhere,
that reads two bytes. -/
theorem C6_readData_short_block_witness :
    ∃ b1, ((m3BlockImpl.create exampleRecord 0 0 dirtyCells dirtyCells dirtyCells).withBase
          { m3Block.create 0 dirtyCells with m_File := some exampleFile }).readData
          exampleRecord 64 2 = Run.done (true, b1) ∧
      (∀ k, k < 2 → b1.record k = exampleFile.bytes (64 + k)) ∧
      (∀ k, 2 ≤ k → k < exampleRecord.sizeofR → b1.record k = 0) :=
  C6_readData_short_block exampleRecord 0 0 dirtyCells dirtyCells dirtyCells
    { m3Block.create 0 dirtyCells with m_File := some exampleFile } exampleFile 64 2 rfl
    (by decide) rfl

/-! ## The typed block: `getSize` and `getData` -/

/-- With index 0 and `szRemain` equal to the size of the variable part the assertion of
`getData` holds, so the call returns in every build. -/
theorem getData_zero_of_eq (b : m3BlockImpl) (sizeofT : Nat) (ndebug : Bool) :
    b.getData sizeofT ndebug 0 (b.m_var.getBytes sizeofT) =
      Run.done (if b.m_var.getBytes sizeofT ≠ 0 then b.m_var.get 0 else none,
        b.m_var.getBytes sizeofT, b) := by
  cases ndebug <;> simp [m3BlockImpl.getData, assert, Run.bind]

/-- With index 0 and `szRemain` different from the size of the variable part `getData` stops
at its assertion when assertions are compiled in, and returns with `szRemain` as it was
in a build with `NDEBUG`. -/
theorem getData_zero_of_ne (b : m3BlockImpl) (sizeofT : Nat) (remaining : Nat)
    (h : remaining ≠ b.m_var.getBytes sizeofT) :
    b.getData sizeofT false 0 remaining = Run.assertFailed ∧
    b.getData sizeofT true 0 remaining =
      Run.done (if remaining ≠ 0 then b.m_var.get 0 else none, remaining, b) := by
  constructor <;> simp [m3BlockImpl.getData, assert, Run.bind, h]

/-- With an index other than 0 `getData` stops at `assert(FALSE)` when assertions are
compiled in, and returns `NULL` in a build with `NDEBUG`. -/
theorem getData_other_index (b : m3BlockImpl) (sizeofT : Nat) (Index : Int)
    (remaining : Nat) (h : Index ≠ 0) :
    b.getData sizeofT false Index remaining = Run.assertFailed ∧
    b.getData sizeofT true Index remaining = Run.done (none, remaining, b) := by
  constructor <;> simp [m3BlockImpl.getData, assert, Run.bind, h]

/-- C7, as stated, fails: on a new block, whose variable part is empty, `getData(0, remaining)`
with `remaining = 1` stops at its assertion when assertions are compiled in, and built with
`NDEBUG` it returns with `remaining` still 1, not `getSize() = 0`. -/
theorem C7_getData_asserts_remaining :
    (exampleBlock 0).getSize sizeof_M_BYTE = Run.done (0, exampleBlock 0) ∧
      (exampleBlock 0).getData sizeof_M_BYTE false 0 1 = Run.assertFailed ∧
      ((exampleBlock 0).getData sizeof_M_BYTE false 0 1).returned = false ∧
      (exampleBlock 0).getData sizeof_M_BYTE true 0 1 = Run.done (none, 1, exampleBlock 0) :=
  ⟨rfl, rfl, rfl, rfl⟩

/-- C7, amended: for every block state, element size and build, `getData(0, remaining)`
does not write `remaining`. Called with `remaining` equal to `getSize()` it returns without
a contract failure and leaves `remaining` and the block as they were, so `remaining` is
`getSize()` afterwards; called with any other value it fails its assertion when assertions
are compiled in, and built with `NDEBUG` it returns with `remaining` as it was. -/
theorem C7_getData_index_zero (b : m3BlockImpl) (sizeofT : Nat) (ndebug : Bool)
    (remaining : Nat) :
    ∃ n, b.getSize sizeofT = Run.done (n, b) ∧
      (remaining = n → ∃ p, b.getData sizeofT ndebug 0 remaining = Run.done (p, n, b)) ∧
      (remaining ≠ n → b.getData sizeofT false 0 remaining = Run.assertFailed) ∧
      (remaining ≠ n → ∃ p, b.getData sizeofT true 0 remaining = Run.done (p, remaining, b)) := by
  refine ⟨b.m_var.getBytes sizeofT, rfl, ?_, ?_, ?_⟩
  · intro h
    subst h
    exact ⟨_, getData_zero_of_eq b sizeofT ndebug⟩
  · intro h
    exact (getData_zero_of_ne b sizeofT remaining h).1
  · intro h
    exact ⟨_, (getData_zero_of_ne b sizeofT remaining h).2⟩

/-- C8: after a successful `readData`, in every build and for every element size,
`getData(0, remaining)` with `remaining = getSize()` returns `NULL` exactly when `getSize()`
is zero, and otherwise returns the address of the first element of the variable buffer. -/
theorem C8_getData_null_iff_empty (R : RecordType) (sizeofT : Nat) (ndebug : Bool)
    (b b1 : m3BlockImpl) (At rem : Nat)
    (_hok : b.readData R At rem = Run.done (true, b1)) :
    ∃ n p, b1.getSize sizeofT = Run.done (n, b1) ∧
      b1.getData sizeofT ndebug 0 n = Run.done (p, n, b1) ∧
      (p = none ↔ n = 0) ∧ (n ≠ 0 → p = b1.m_var.get 0 ∧ p = some 0) := by
  refine ⟨b1.m_var.getBytes sizeofT,
    if b1.m_var.getBytes sizeofT ≠ 0 then b1.m_var.get 0 else none, rfl,
    getData_zero_of_eq b1 sizeofT ndebug, ?_, ?_⟩
  · by_cases h0 : b1.m_var.getBytes sizeofT = 0
    · simp [h0]
    · have hsz : b1.m_var.m_Size ≠ 0 := by
        intro hz
        apply h0
        simp [dynArray.getBytes, hz]
      have hpos : 0 < b1.m_var.m_Size := Nat.pos_of_ne_zero hsz
      simp [h0, dynArray.get, hpos]
  · intro hn
    have hsz : b1.m_var.m_Size ≠ 0 := by
      intro hz
      apply hn
      simp [dynArray.getBytes, hz]
    have hpos : 0 < b1.m_var.m_Size := Nat.pos_of_ne_zero hsz
    simp [hn, dynArray.get, hpos]

/-- C8 at a block of byte elements that read six bytes, two of them into the variable
part, in a build with assertions. -/
theorem C8_getData_null_iff_empty_witness :
    ∃ n p, ((exampleBlock 0).afterReadData exampleRecord 0 6).getSize sizeof_M_BYTE =
        Run.done (n, (exampleBlock 0).afterReadData exampleRecord 0 6) ∧
      ((exampleBlock 0).afterReadData exampleRecord 0 6).getData sizeof_M_BYTE false 0 n =
        Run.done (p, n, (exampleBlock 0).afterReadData exampleRecord 0 6) ∧
      (p = none ↔ n = 0) ∧
      (n ≠ 0 → p = ((exampleBlock 0).afterReadData exampleRecord 0 6).m_var.get 0 ∧
        p = some 0) :=
  C8_getData_null_iff_empty exampleRecord sizeof_M_BYTE false (exampleBlock 0)
    ((exampleBlock 0).afterReadData exampleRecord 0 6) 0 6 rfl

/-- C9, as stated, fails: built with `NDEBUG`, `getData(1, 2)` on a block with two variable
bytes does not fail; it returns `NULL` and leaves `remaining` and the block alone. -/
theorem C9_getData_returns_null_silently :
    (exampleBlock 2).getData sizeof_M_BYTE true 1 2 = Run.done (none, 2, exampleBlock 2) ∧
      ((exampleBlock 2).getData sizeof_M_BYTE true 1 2).returned = true :=
  ⟨rfl, rfl⟩

/-- C9, amended: for every block state and every index other than 0, negative or positive,
`getData(index, remaining)` returns no address in the variable part. With assertions
compiled in it stops at `assert(FALSE)` and does not return; built with `NDEBUG` it returns
`NULL` and leaves `remaining` and the block as they were. -/
theorem C9_getData_other_index (b : m3BlockImpl) (sizeofT : Nat) (ndebug : Bool)
    (Index : Int) (remaining : Nat) (h : Index ≠ 0) :
    (∀ p r b1, b.getData sizeofT ndebug Index remaining ≠ Run.done (some p, r, b1)) ∧
      b.getData sizeofT false Index remaining = Run.assertFailed ∧
      (b.getData sizeofT false Index remaining).returned = false ∧
      b.getData sizeofT true Index remaining = Run.done (none, remaining, b) := by
  have hrun := getData_other_index b sizeofT Index remaining h
  refine ⟨?_, hrun.1, ?_, hrun.2⟩
  · intro p r b1 hEq
    cases ndebug
    · rw [hrun.1] at hEq
      cases hEq
    · rw [hrun.2] at hEq
      cases hEq
  · rw [hrun.1]; rfl

/-- C9, amended, at index -1 on a block with two variable bytes, in a build with
`NDEBUG`. -/
theorem C9_getData_other_index_witness :
    (∀ p r b1, (exampleBlock 2).getData sizeof_M_BYTE true (-1) 2 ≠
        Run.done (some p, r, b1)) ∧
      (exampleBlock 2).getData sizeof_M_BYTE false (-1) 2 = Run.assertFailed ∧
      ((exampleBlock 2).getData sizeof_M_BYTE false (-1) 2).returned = false ∧
      (exampleBlock 2).getData sizeof_M_BYTE true (-1) 2 =
        Run.done (none, 2, exampleBlock 2) :=
  C9_getData_other_index (exampleBlock 2) sizeof_M_BYTE true (-1) 2 (by decide)

/-! ## Construction -/

/-- A member all of whose bytes lie in a zeroed region is a list of zeros. -/
theorem memberBytes_of_zero (mem : Nat → Nat) (size offset n : Nat)
    (hzero : ∀ k, k < size → mem k = 0) (hin : offset + n ≤ size) :
    memberBytes mem offset n = List.replicate n 0 := by
  apply List.ext_getElem
  · simp [memberBytes]
  · intro i h1 h2
    have hi : i < n := by simpa [memberBytes] using h1
    simp [memberBytes, hzero (offset + i) (by omega)]

/-- A number all of whose bytes are zero is zero. -/
theorem leValue_replicate_zero (n : Nat) : leValue (List.replicate n 0) = 0 := by
  induction n with
  | zero => rfl
  | succ n ih => simp [List.replicate_succ, leValue, ih]

/-- C10: right after construction, for every initial variable size `nVar` and whatever the
memory held before, every byte of the fixed record of a typed block is zero; a new header
block has its text members filled with zeros and its timestamp, UTC offset, time quality
class and time identification equal to 0. -/
theorem C10_record_zero_after_construction (R : RecordType) (ID nVar : Nat)
    (uninit linkCells varCells : Nat → Nat) (p : Packing) :
    (∀ k, k < R.sizeofR → (m3BlockImpl.create R ID nVar uninit linkCells varCells).record k = 0) ∧
    (∀ k, k < M3HDRecord.sizeof p → (M3HDBlock.create p uninit linkCells varCells).record k = 0) ∧
    M3HDRecord.hd_date p (M3HDBlock.create p uninit linkCells varCells).record = List.replicate 10 0 ∧
    M3HDRecord.hd_time p (M3HDBlock.create p uninit linkCells varCells).record = List.replicate 8 0 ∧
    M3HDRecord.hd_author p (M3HDBlock.create p uninit linkCells varCells).record = List.replicate 32 0 ∧
    M3HDRecord.hd_organization p (M3HDBlock.create p uninit linkCells varCells).record = List.replicate 32 0 ∧
    M3HDRecord.hd_project p (M3HDBlock.create p uninit linkCells varCells).record = List.replicate 32 0 ∧
    M3HDRecord.hd_subject p (M3HDBlock.create p uninit linkCells varCells).record = List.replicate 32 0 ∧
    M3HDRecord.hd_timestamp p (M3HDBlock.create p uninit linkCells varCells).record = 0 ∧
    M3HDRecord.hd_utc_time_offset p (M3HDBlock.create p uninit linkCells varCells).record = 0 ∧
    M3HDRecord.hd_time_quality_class p (M3HDBlock.create p uninit linkCells varCells).record = 0 ∧
    M3HDRecord.hd_time_identification p (M3HDBlock.create p uninit linkCells varCells).record = 0 := by
  have hgen : ∀ (R : RecordType) (ID nVar : Nat) (k : Nat), k < R.sizeofR →
      (m3BlockImpl.create R ID nVar uninit linkCells varCells).record k = 0 := by
    intro R ID nVar k hk
    simp [m3BlockImpl.create, memset, hk]
  have hhd : ∀ k, k < M3HDRecord.sizeof p → (M3HDBlock.create p uninit linkCells varCells).record k = 0 :=
    fun k hk => hgen (M3HDRecord.type p) M3HDRecord.RID 0 k hk
  have hmem : ∀ i n, M3HDRecord.offsetOf p i + n ≤ M3HDRecord.sizeof p →
      memberBytes (M3HDBlock.create p uninit linkCells varCells).record (M3HDRecord.offsetOf p i) n =
        List.replicate n 0 :=
    fun i n hin => memberBytes_of_zero _ _ _ _ hhd hin
  refine ⟨hgen R ID nVar, hhd, ?_, ?_, ?_, ?_, ?_, ?_, ?_, ?_, ?_, ?_⟩
  · exact hmem 1 10 (by cases p <;> decide)
  · exact hmem 2 8 (by cases p <;> decide)
  · exact hmem 3 32 (by cases p <;> decide)
  · exact hmem 4 32 (by cases p <;> decide)
  · exact hmem 5 32 (by cases p <;> decide)
  · exact hmem 6 32 (by cases p <;> decide)
  · unfold M3HDRecord.hd_timestamp
    rw [hmem 7 8 (by cases p <;> decide), leValue_replicate_zero]
  · unfold M3HDRecord.hd_utc_time_offset
    rw [hmem 8 2 (by cases p <;> decide), leValue_replicate_zero]
    rfl
  · unfold M3HDRecord.hd_time_quality_class
    rw [hmem 9 2 (by cases p <;> decide), leValue_replicate_zero]
  · unfold M3HDRecord.hd_time_identification
    rw [hmem 10 1 (by cases p <;> decide), leValue_replicate_zero]

/-! ## The layout of the header record -/

/-- C11, as stated, fails: in every packing the member `hd_date` starts at byte 2 of the
record, behind `hd_block_size`, and `sizeof(M3HDRecord)`, the count `readData` reads as the
fixed part, is 161, 162, 164 or 168, not 159. -/
theorem C11_date_not_first :
    M3HDRecord.memberNames.take 2 = ["hd_block_size", "hd_date"] ∧
    [M3HDRecord.offsetOf Packing.pack1 1, M3HDRecord.offsetOf Packing.pack2 1,
      M3HDRecord.offsetOf Packing.pack4 1, M3HDRecord.offsetOf Packing.pack8 1] = [2, 2, 2, 2] ∧
    [M3HDRecord.sizeof Packing.pack1, M3HDRecord.sizeof Packing.pack2,
      M3HDRecord.sizeof Packing.pack4, M3HDRecord.sizeof Packing.pack8] = [161, 162, 164, 168] ∧
    m3BlockImpl.readDataReads (M3HDRecord.type Packing.pack1) exampleHeader 84 200 =
      [(84, 161), (245, 39)] := by
  refine ⟨by decide, by decide, by decide, rfl⟩

/-- C11, amended: the fixed record of the header is the 16 bit member `hd_block_size`
followed by date (10 bytes), time (8), author (32), organization (32), project (32),
subject (32), timestamp (8), UTC offset (2), time quality class (2) and time identification
(1), in this order. The date starts at byte 2, the ten members behind `hd_block_size` take
159 bytes and all members 161; `sizeof(M3HDRecord)` is at least 161 and is 161 with byte
packing (162, 164, 168 with packing 2, 4, 8), and with at least that many bytes remaining
`readData` reads `sizeof(M3HDRecord)` bytes at `At` as the fixed part. -/
theorem C11_header_record_layout (p : Packing) :
    M3HDRecord.memberNames.zip M3HDRecord.memberWidths =
      [("hd_block_size", 2), ("hd_date", 10), ("hd_time", 8), ("hd_author", 32),
        ("hd_organization", 32), ("hd_project", 32), ("hd_subject", 32), ("hd_timestamp", 8),
        ("hd_utc_time_offset", 2), ("hd_time_quality_class", 2),
        ("hd_time_identification", 1)] ∧
    (memberOffsets p 0 M3HDRecord.members).take 7 = [0, 2, 12, 20, 52, 84, 116] ∧
    M3HDRecord.offsetOf p 1 = 2 ∧
    (M3HDRecord.memberWidths.drop 1).sum = 159 ∧
    M3HDRecord.memberWidths.sum = 161 ∧
    161 ≤ M3HDRecord.sizeof p ∧
    M3HDRecord.sizeof Packing.pack1 = 161 ∧
    M3HDRecord.sizeof Packing.pack2 = 162 ∧
    M3HDRecord.sizeof Packing.pack4 = 164 ∧
    M3HDRecord.sizeof Packing.pack8 = 168 ∧
    (∀ (b : m3BlockImpl) (f : mDirectFile) (At rem : Nat), b.m_File = some f →
      M3HDRecord.sizeof p ≤ rem →
      (b.readDataReads (M3HDRecord.type p) At rem).head? = some (At, M3HDRecord.sizeof p)) := by
  refine ⟨by decide, by cases p <;> decide, by cases p <;> decide, by decide, by decide,
    by cases p <;> decide, by decide, by decide, by decide, by decide, ?_⟩
  intro b f At rem hf hrem
  have hlt : M3HDRecord.sizeof p < 2 ^ 32 := (M3HDRecord.type p).sizeof_lt
  have hsz : (M3HDRecord.type p).sizeofR = M3HDRecord.sizeof p := rfl
  have hmin : (if M3HDRecord.sizeof p > rem then rem else M3HDRecord.sizeof p) =
      M3HDRecord.sizeof p := by
    split
    · omega
    · rfl
  simp only [m3BlockImpl.readDataReads, hf, hsz, hmin, UINT32_RANGE, Nat.mod_eq_of_lt hlt,
    List.head?_cons]

/-! ## Failure of `readData` -/

/-- C12: a failed `readData` is not rolled back. The file `exampleFileShort` lets the read of
the fixed part succeed and the read of the variable part fail: `readData(0, 6)` returns
failure, yet the first byte of the record went from 0 to 170 and the variable buffer from
0 to 2 bytes. -/
theorem C12_failed_readData_not_rolled_back :
    ∃ (R : RecordType) (f : mDirectFile) (b b1 : m3BlockImpl) (At rem : Nat),
      b.m_File = some f ∧ b.readData R At rem = Run.done (false, b1) ∧
      b.record 0 = 0 ∧ b1.record 0 = 170 ∧ b1.record ≠ b.record ∧
      b.m_var.getBytes sizeof_M_BYTE = 0 ∧ b1.m_var.getBytes sizeof_M_BYTE = 2 ∧
      b1.m_var ≠ b.m_var := by
  refine ⟨exampleRecord, exampleFileShort, exampleBlockShort,
    exampleBlockShort.afterReadData exampleRecord 0 6, 0, 6, rfl, rfl, rfl, rfl, ?_, rfl, rfl, ?_⟩
  · intro h
    have h0 := congrFun h 0
    exact absurd h0 (by decide)
  · intro h
    have h0 := congrArg dynArray.m_Size h
    exact absurd h0 (by decide)

/-- The reads `readData` issues with no more bytes than the record has: one, of the record. -/
theorem readDataReads_short (R : RecordType) (b : m3BlockImpl) (f : mDirectFile)
    (At rem : Nat) (hf : b.m_File = some f) (hrem : rem ≤ R.sizeofR) :
    b.readDataReads R At rem = [(At, rem)] := by
  have hlt : rem < 2 ^ 32 := Nat.lt_of_le_of_lt hrem R.sizeof_lt
  have hmin : (if R.sizeofR > rem then rem else R.sizeofR) = rem := by
    split
    · rfl
    · omega
  simp only [m3BlockImpl.readDataReads, hf, hmin, UINT32_RANGE, Nat.mod_eq_of_lt hlt,
    Nat.sub_self, Nat.zero_mod, gt_iff_lt, Nat.lt_irrefl, if_false]
  cases f.ReadAt At rem b.record <;> rfl

/-- The reads `readData` issues with more bytes than the record has: the one of the record
and, when that one succeeds, the one of the variable part. -/
theorem readDataReads_long (R : RecordType) (b : m3BlockImpl) (f : mDirectFile)
    (At rem : Nat) (hf : b.m_File = some f) (hrem : R.sizeofR < rem)
    (h64 : rem < UINT64_RANGE) :
    b.readDataReads R At rem =
      (At, R.sizeofR) ::
        (if f.readable At R.sizeofR = true then
          [((At + R.sizeofR) % UINT64_RANGE, (rem - R.sizeofR) % UINT32_RANGE)]
        else []) := by
  have hmodR : R.sizeofR % 2 ^ 32 = R.sizeofR := Nat.mod_eq_of_lt R.sizeof_lt
  have hmin : (if R.sizeofR > rem then rem else R.sizeofR) = R.sizeofR := by
    split
    · omega
    · rfl
  have hsub : (rem - R.sizeofR) % UINT64_RANGE = rem - R.sizeofR :=
    Nat.mod_eq_of_lt (Nat.lt_of_le_of_lt (Nat.sub_le _ _) h64)
  have hpos : 0 < rem - R.sizeofR := Nat.sub_pos_of_lt hrem
  simp only [m3BlockImpl.readDataReads, hf, hmin, hsub, UINT32_RANGE, hmodR,
    mDirectFile.ReadAt]
  by_cases hread : f.readable At R.sizeofR = true
  · simp [hread, hpos, dynArray.resize, dynArray.get]
  · simp [hread]

/-- C14: with a file bound and a 64 bit `rem`, `readData(At, rem)` returns, and it returns
failure exactly when the read of the fixed part fails, or `rem > sizeof(R)` and the read of
the variable part fails. With `rem <= sizeof(R)` it issues one read and returns its result;
when the read of the fixed part fails it issues no read of the variable part and the
variable buffer is the one from before the call. -/
theorem C14_readData_failure (R : RecordType) (b : m3BlockImpl) (f : mDirectFile)
    (At rem : Nat) (hf : b.m_File = some f) (h64 : rem < UINT64_RANGE) :
    ∃ r b1, b.readData R At rem = Run.done (r, b1) ∧
      (r = false ↔ (f.readable At (min R.sizeofR rem) = false ∨
        (R.sizeofR < rem ∧ f.readable ((At + R.sizeofR) % UINT64_RANGE)
          ((rem - R.sizeofR) % UINT32_RANGE) = false))) ∧
      (rem ≤ R.sizeofR → b.readDataReads R At rem = [(At, rem)] ∧ r = f.readable At rem) ∧
      (f.readable At (min R.sizeofR rem) = false →
        b.readDataReads R At rem = [(At, min R.sizeofR rem)] ∧ b1.m_var = b.m_var) := by
  by_cases hrem : rem ≤ R.sizeofR
  · have hmin : min R.sizeofR rem = rem := Nat.min_eq_right hrem
    have hnot : ¬ R.sizeofR < rem := Nat.not_lt.mpr hrem
    rw [readData_short R b f At rem hf hrem, readDataReads_short R b f At rem hf hrem, hmin]
    by_cases hread : f.readable At rem = true
    · simp only [mDirectFile.ReadAt, hread, if_true]
      refine ⟨_, _, rfl, ?_, ?_, ?_⟩ <;> simp [hnot]
    · have hfalse : f.readable At rem = false := by simpa using hread
      simp only [mDirectFile.ReadAt, hfalse]
      refine ⟨_, _, rfl, ?_, ?_, ?_⟩ <;> simp
  · have hlt : R.sizeofR < rem := Nat.not_le.mp hrem
    have hmin : min R.sizeofR rem = R.sizeofR := Nat.min_eq_left (Nat.le_of_lt hlt)
    rw [readData_long R b f At rem hf hlt h64, readDataReads_long R b f At rem hf hlt h64,
      hmin]
    by_cases hread : f.readable At R.sizeofR = true
    · by_cases hvar : f.readable ((At + R.sizeofR) % UINT64_RANGE)
          ((rem - R.sizeofR) % UINT32_RANGE) = true
      · simp only [mDirectFile.ReadAt, hread, hvar, if_true]
        refine ⟨_, _, rfl, ?_, ?_, ?_⟩ <;> simp [hrem]
      · have hvfalse : f.readable ((At + R.sizeofR) % UINT64_RANGE)
            ((rem - R.sizeofR) % UINT32_RANGE) = false := by simpa using hvar
        simp only [mDirectFile.ReadAt, hread, hvfalse, if_true]
        refine ⟨_, _, rfl, ?_, ?_, ?_⟩ <;> simp [hrem, hlt]
    · have hfalse : f.readable At R.sizeofR = false := by simpa using hread
      simp only [mDirectFile.ReadAt, hfalse]
      refine ⟨_, _, rfl, ?_, ?_, ?_⟩ <;> simp [hrem]

/-- C14 at the block bound to `exampleFileShort` and six bytes remaining: the read of the
fixed part succeeds and the read of the variable part fails. -/
theorem C14_readData_failure_witness :
    ∃ r b1, exampleBlockShort.readData exampleRecord 0 6 = Run.done (r, b1) ∧
      (r = false ↔ (exampleFileShort.readable 0 (min exampleRecord.sizeofR 6) = false ∨
        (exampleRecord.sizeofR < 6 ∧
          exampleFileShort.readable ((0 + exampleRecord.sizeofR) % UINT64_RANGE)
            ((6 - exampleRecord.sizeofR) % UINT32_RANGE) = false))) ∧
      (6 ≤ exampleRecord.sizeofR →
        exampleBlockShort.readDataReads exampleRecord 0 6 = [(0, 6)] ∧
        r = exampleFileShort.readable 0 6) ∧
      (exampleFileShort.readable 0 (min exampleRecord.sizeofR 6) = false →
        exampleBlockShort.readDataReads exampleRecord 0 6 =
          [(0, min exampleRecord.sizeofR 6)] ∧ b1.m_var = exampleBlockShort.m_var) :=
  C14_readData_failure exampleRecord exampleBlockShort exampleFileShort 0 6 rfl (by decide)

/-! ## The link table of a typed block -/

/-- C16: in a block with N link slots, for every i < N and every offset v, `setLink(i, v)`
returns, `getLink(j)` returns what it returned before for every j other than i, the number
of slots is still N, and the header, the file, the position, the fixed record and the
variable buffer are the ones from before the call. -/
theorem C16_setLink_changes_one_slot (b : m3BlockImpl) (i v : Nat)
    (hi : i < b.m_Links.getSize) :
    ∃ b1, b.setLink i v = Run.done b1 ∧
      (∀ j, j ≠ i → ∃ w, b.getLink j = Run.done (w, b) ∧ b1.getLink j = Run.done (w, b1)) ∧
      b1.m_Links.getSize = b.m_Links.getSize ∧ b1.m_Hdr = b.m_Hdr ∧ b1.m_File = b.m_File ∧
      b1.m_At = b.m_At ∧ b1.record = b.record ∧ b1.m_var = b.m_var := by
  refine ⟨b.withBase { b.tom3Block with m_Links := b.m_Links.store i v }, ?_, ?_,
    rfl, rfl, rfl, rfl, rfl, rfl⟩
  · simp only [m3BlockImpl.setLink, setLink_in_range b.tom3Block i v hi, Run.bind]
  · intro j hj
    by_cases hjr : j < b.m_Links.getSize
    · refine ⟨b.m_Links.load j, ?_, ?_⟩
      · simp only [m3BlockImpl.getLink, getLink_in_range b.tom3Block j hjr, Run.bind]
        rfl
      · have hjr1 : j < ({ b.tom3Block with m_Links := b.m_Links.store i v } :
            m3Block).m_Links.getSize := hjr
        simp only [m3BlockImpl.getLink, m3BlockImpl.withBase, getLink_in_range _ j hjr1,
          Run.bind]
        simp [dynArray.load, dynArray.store, hj]
    · refine ⟨0, ?_, ?_⟩
      · simp only [m3BlockImpl.getLink, getLink_past_end b.tom3Block j (Nat.not_lt.mp hjr),
          Run.bind]
        rfl
      · have hjr1 : j ≥ ({ b.tom3Block with m_Links := b.m_Links.store i v } :
            m3Block).m_Links.getSize := Nat.not_lt.mp hjr
        simp only [m3BlockImpl.getLink, m3BlockImpl.withBase, getLink_past_end _ j hjr1,
          Run.bind]

/-- C16 at the header block: slot 1 is set to 4096. -/
theorem C16_setLink_changes_one_slot_witness :
    ∃ b1, exampleHeader.setLink 1 4096 = Run.done b1 ∧
      (∀ j, j ≠ 1 → ∃ w, exampleHeader.getLink j = Run.done (w, exampleHeader) ∧
        b1.getLink j = Run.done (w, b1)) ∧
      b1.m_Links.getSize = exampleHeader.m_Links.getSize ∧ b1.m_Hdr = exampleHeader.m_Hdr ∧
      b1.m_File = exampleHeader.m_File ∧ b1.m_At = exampleHeader.m_At ∧
      b1.record = exampleHeader.record ∧ b1.m_var = exampleHeader.m_var :=
  C16_setLink_changes_one_slot exampleHeader 1 4096 (by decide)

/-! ## The key of the record count table -/

/-- C15, as stated, fails: group 0 with record kind `2 ^ 45` and group 1 with record kind 0
have the same key, and so have the groups `2 ^ 19` and 0 with the same record kind. -/
theorem C15_key_collision :
    idCountKey 0 (2 ^ 45) = idCountKey 1 0 ∧ ((0 : Nat), (2 : Nat) ^ 45) ≠ (1, 0) ∧
    idCountKey (2 ^ 19) 7 = idCountKey 0 7 ∧ ((2 : Nat) ^ 19, (7 : Nat)) ≠ (0, 7) ∧
    (2 : Nat) ^ 45 < UINT64_RANGE ∧ (2 : Nat) ^ 19 < UINT64_RANGE := by
  decide

/-- The key of a group below `2 ^ 19` and a record kind below `2 ^ 45` is their sum with
the group scaled by `2 ^ 45`. -/
theorem idCountKey_in_range (g r : Nat) (hg : g < 2 ^ 19) (hr : r < 2 ^ 45) :
    idCountKey g r = 2 ^ 45 * g + r := by
  have h1 : g <<< 45 = 2 ^ 45 * g := by rw [Nat.shiftLeft_eq, Nat.mul_comm]
  have h2 : 2 ^ 45 * g < UINT64_RANGE := by
    have : UINT64_RANGE = 2 ^ 45 * 2 ^ 19 := by decide
    rw [this]
    exact Nat.mul_lt_mul_of_pos_left hg (by decide)
  have h3 : r < UINT64_RANGE := Nat.lt_trans hr (by decide)
  unfold idCountKey
  rw [h1, Nat.mod_eq_of_lt h2, Nat.mod_eq_of_lt h3]
  exact (Nat.mul_add_lt_is_or hr g).symm

/-- C15, amended: the key `(g << 45) | r` is free of collisions as long as the group number
is below `2 ^ 19` and the record kind below `2 ^ 45`: two such pairs with the same key are
the same pair. -/
theorem C15_key_injective_in_range (g1 r1 g2 r2 : Nat) (hg1 : g1 < 2 ^ 19)
    (hr1 : r1 < 2 ^ 45) (hg2 : g2 < 2 ^ 19) (hr2 : r2 < 2 ^ 45)
    (hne : (g1, r1) ≠ (g2, r2)) : idCountKey g1 r1 ≠ idCountKey g2 r2 := by
  rw [idCountKey_in_range g1 r1 hg1 hr1, idCountKey_in_range g2 r2 hg2 hr2]
  intro h
  apply hne
  have h45 : (2 : Nat) ^ 45 = 35184372088832 := by norm_num
  rw [h45] at h hr1 hr2
  have hg : g1 = g2 := by omega
  have hr : r1 = r2 := by omega
  rw [hg, hr]

/-- C15, amended, at the groups 3 and 4 with the record kinds 17 and 5. -/
theorem C15_key_injective_in_range_witness : idCountKey 3 17 ≠ idCountKey 4 5 :=
  C15_key_injective_in_range 3 17 4 5 (by decide) (by decide) (by decide) (by decide)
    (by decide)

/-! ## The count of the second read -/

/-- C17: at the remaining count `sizeof(R) + 2 ^ 32` the variable buffer is resized to
`2 ^ 32` bytes, and the count of the read of the variable part is `(M_UINT32)2 ^ 32 = 0`:
the two differ, the call returns success, and the last byte of the buffer is not the file
byte at that place. -/
theorem C17_count_differs_from_length :
    (exampleBlock 0).readDataReads exampleRecord 0 (4 + 2 ^ 32) = [(0, 4), (4, 0)] ∧
    (4 + 2 ^ 32 - exampleRecord.sizeofR) % UINT32_RANGE = 0 ∧
    ∃ b1, (exampleBlock 0).readData exampleRecord 0 (4 + 2 ^ 32) = Run.done (true, b1) ∧
      b1.getSize sizeof_M_BYTE = Run.done (2 ^ 32, b1) ∧
      b1.m_var.m_Data (2 ^ 32 - 1) = 0 ∧ exampleFile.bytes (0 + 4 + (2 ^ 32 - 1)) = 170 :=
  ⟨rfl, rfl, _, rfl, rfl, rfl, rfl⟩

end Mdf3
